import Mathlib

/-!
Verification of the normalized GraphQL result cache of apollo-client:
a shallow embedding of the store utilities (`storeUtils`), the normalizing
writer (`writeToStore`), the graph writer (`src/graph/write.ts`) and the
optimistic layer stack, together with theorems settling the specification
claims about field keys, synthetic ids, identity reconciliation, partial
writes and idempotence.
-/

namespace Apollo

/-- Dynamic JavaScript/JSON values as they appear in GraphQL result trees,
variable environments and argument objects.  Objects are insertion-ordered
association lists, matching JavaScript property order.  The distinguished
`undefined` value models JavaScript `undefined` (a missing property).  Numeric
payloads are modelled as integers (the claims do not involve floats). -/
inductive JsValue where
  | undefined
  | null
  | bool (b : Bool)
  | num (n : Int)
  | str (s : String)
  | arr (elems : List JsValue)
  | obj (fields : List (String × JsValue))
deriving Repr

/-- A JavaScript object: insertion-ordered key/value pairs. -/
abbrev JsObj := List (String × JsValue)

/-- JavaScript property assignment `o[k] = v`: updating an existing key keeps
its position, a new key is appended. -/
def alistSet {α : Type} : List (String × α) → String → α → List (String × α)
  | [], k, v => [(k, v)]
  | (k', v') :: rest, k, v =>
    if k' = k then (k', v) :: rest else (k', v') :: alistSet rest k v

/-- JavaScript property lookup returning `none` for a missing key. -/
def alistGet? {α : Type} : List (String × α) → String → Option α
  | [], _ => none
  | (k', v') :: rest, k => if k' = k then some v' else alistGet? rest k

/-- JavaScript `delete o[k]`. -/
def alistRemove {α : Type} : List (String × α) → String → List (String × α)
  | [], _ => []
  | (k', v') :: rest, k =>
    if k' = k then rest else (k', v') :: alistRemove rest k

/-- JavaScript `Object.assign(target, source)`: copy the source properties onto the
target, overwriting shared keys in place and appending new keys. -/
def jsAssign {α : Type} (target source : List (String × α)) : List (String × α) :=
  source.foldl (fun acc kv => alistSet acc kv.1 kv.2) target

/-- JavaScript property read `o[k]`, yielding `undefined` for a missing key. -/
def objGet (o : JsObj) (k : String) : JsValue :=
  match alistGet? o k with
  | some v => v
  | none => .undefined

/-- Property read on an arbitrary value: reads on non-objects yield
`undefined` (the only reads the writer performs on them). -/
def jsGetField : JsValue → String → JsValue
  | .obj fields, k => objGet fields k
  | _, _ => .undefined

/-- lodash `isUndefined`. -/
def isUndef : JsValue → Bool
  | .undefined => true
  | _ => false

/-- lodash `isNull`. -/
def isNullJs : JsValue → Bool
  | .null => true
  | _ => false

/-- lodash `isObject`: objects and arrays are objects, primitives are not. -/
def isObjectJs : JsValue → Bool
  | .obj _ => true
  | .arr _ => true
  | _ => false

/-- Minimal JSON string escaping as performed by `JSON.stringify` (the
claims only exercise quote and backslash escaping), character by
character. -/
def escapeJsonChars : List Char → List Char
  | [] => []
  | c :: cs =>
    (if c = '"' then ['\\', '"']
     else if c = '\\' then ['\\', '\\']
     else [c]) ++ escapeJsonChars cs

/-- JSON escaping on strings. -/
def escapeJsonString (s : String) : String :=
  String.mk (escapeJsonChars s.data)

mutual

/-- Serialization `JSON.stringify` on a value occurring inside an object or array;
`none` means the value is `undefined` and its property is omitted. -/
def jsonStringifyVal : JsValue → Option String
  | .undefined => none
  | .null => some "null"
  | .bool true => some "true"
  | .bool false => some "false"
  | .num n => some (toString n)
  | .str s => some ("\"" ++ escapeJsonString s ++ "\"")
  | .arr xs => some ("[" ++ String.intercalate "," (jsonStringifyArr xs) ++ "]")
  | .obj fs => some ("\x7b" ++ String.intercalate "," (jsonStringifyFields fs) ++ "\x7d")

/-- Array elements: `undefined` serializes as `null` inside arrays. -/
def jsonStringifyArr : List JsValue → List String
  | [] => []
  | x :: xs =>
    (match jsonStringifyVal x with
     | some s => s
     | none => "null") :: jsonStringifyArr xs

/-- Object properties: properties whose value is `undefined` are omitted. -/
def jsonStringifyFields : List (String × JsValue) → List String
  | [] => []
  | (k, v) :: fs =>
    match jsonStringifyVal v with
    | some s => ("\"" ++ escapeJsonString k ++ "\":" ++ s) :: jsonStringifyFields fs
    | none => jsonStringifyFields fs

end

/-- Top-level `JSON.stringify` (only ever applied to defined values here). -/
def jsonStringify (v : JsValue) : String :=
  match jsonStringifyVal v with
  | some s => s
  | none => "undefined"

/-- GraphQL argument value AST (`ValueNode`).  `varNode` models
`VariableNode`; `otherValue` stands for any further kind (e.g. `NullValue`),
which the encoder rejects.  Numeric literal payloads are modelled as
integers. -/
inductive ValueNode where
  | intValue (v : Int)
  | floatValue (v : Int)
  | stringValue (v : String)
  | booleanValue (v : Bool)
  | objectValue (fields : List (String × ValueNode))
  | listValue (values : List ValueNode)
  | enumValue (v : String)
  | varNode (name : String)
  | otherValue (kind : String)
deriving Repr

/-- Error kinds raised by the store utilities and the writer. -/
inductive WErr where
  | unsupportedArgKind (name kind : String)
  | missingFragment (name : String)
  | identityViolation
  | identityOverwrite (id : String)
  | jsTypeError (msg : String)
  | noFuel
deriving Repr, DecidableEq

mutual

/-- Source `valueToObjectRepresentation`: convert one argument AST value and store
it under `name` in `argObj`.  Int/float literals become numbers, string and
boolean literals their value, object values a recursively converted mapping,
variables the (possibly `undefined`) value from the environment, list values
a recursively converted array, enum values their name; any other kind is a
hard error naming the kind. -/
def valueToObjectRepresentation (argObj : JsObj) (name : String) (value : ValueNode)
    (vars : JsObj) : Except WErr JsObj :=
  match value with
  | .intValue v => .ok (alistSet argObj name (.num v))
  | .floatValue v => .ok (alistSet argObj name (.num v))
  | .booleanValue v => .ok (alistSet argObj name (.bool v))
  | .stringValue v => .ok (alistSet argObj name (.str v))
  | .objectValue fields => do
      let nestedArgObj ← valueFieldsToObjectRepresentation [] fields vars
      .ok (alistSet argObj name (.obj nestedArgObj))
  | .varNode vname => .ok (alistSet argObj name (objGet vars vname))
  | .listValue values => do
      let elems ← valueListToObjectRepresentation name values vars
      .ok (alistSet argObj name (.arr elems))
  | .enumValue v => .ok (alistSet argObj name (.str v))
  | .otherValue kind => .error (.unsupportedArgKind name kind)

/-- The `value.fields.map(...)` loop of the `ObjectValue` branch, threading
the nested argument object through the field conversions. -/
def valueFieldsToObjectRepresentation (nestedArgObj : JsObj)
    (fields : List (String × ValueNode)) (vars : JsObj) : Except WErr JsObj :=
  match fields with
  | [] => .ok nestedArgObj
  | (fname, fval) :: rest => do
      let nestedArgObj' ← valueToObjectRepresentation nestedArgObj fname fval vars
      valueFieldsToObjectRepresentation nestedArgObj' rest vars

/-- The `value.values.map(...)` loop of the `ListValue` branch: each element
is converted into a scratch object under the field name and read back. -/
def valueListToObjectRepresentation (name : String) (values : List ValueNode)
    (vars : JsObj) : Except WErr (List JsValue) :=
  match values with
  | [] => .ok []
  | v :: rest => do
      let nestedArgArrayObj ← valueToObjectRepresentation [] name v vars
      let elem := objGet nestedArgArrayObj name
      let elems ← valueListToObjectRepresentation name rest vars
      .ok (elem :: elems)

end

mutual

/-- A GraphQL field node: name, optional alias, arguments (name/value AST
pairs, in document order) and optional sub-selection. -/
inductive FieldNode where
  | mk (name : String) (fieldAlias : Option String)
       (arguments : List (String × ValueNode)) (selectionSet : Option SelectionSet)

/-- A selection: a field, an inline fragment or a named fragment spread. -/
inductive Selection where
  | field (f : FieldNode)
  | inlineFragment (selectionSet : SelectionSet)
  | fragmentSpread (name : String)

/-- A selection set: the list of selections at one tree position. -/
inductive SelectionSet where
  | mk (selections : List Selection)

end

def FieldNode.name : FieldNode → String
  | .mk n _ _ _ => n

def FieldNode.fieldAlias : FieldNode → Option String
  | .mk _ a _ _ => a

def FieldNode.arguments : FieldNode → List (String × ValueNode)
  | .mk _ _ args _ => args

def FieldNode.selectionSet : FieldNode → Option SelectionSet
  | .mk _ _ _ ss => ss

def SelectionSet.selections : SelectionSet → List Selection
  | .mk sels => sels

/-- Source `storeKeyNameFromFieldNameAndArgs`: the bare `fieldName` alone without arguments,
else `fieldName(J)` with `J` the `JSON.stringify` serialization of the
argument object. -/
def storeKeyNameFromFieldNameAndArgs (fieldName : String) (args : Option JsObj) : String :=
  match args with
  | some a => fieldName ++ "(" ++ jsonStringify (.obj a) ++ ")"
  | none => fieldName

/-- The `field.arguments.forEach(...)` loop of `storeKeyNameFromField`. -/
def buildFieldArgs (args : List (String × ValueNode)) (argObj : JsObj)
    (vars : JsObj) : Except WErr JsObj :=
  match args with
  | [] => .ok argObj
  | (n, v) :: rest => do
      let argObj' ← valueToObjectRepresentation argObj n v vars
      buildFieldArgs rest argObj' vars

/-- Source `storeKeyNameFromField`: the store key of a field under a variable
environment. -/
def storeKeyNameFromField (field : FieldNode) (vars : JsObj) : Except WErr String :=
  match field.arguments with
  | [] => .ok field.name
  | _ :: _ => do
      let argObj ← buildFieldArgs field.arguments [] vars
      .ok (storeKeyNameFromFieldNameAndArgs field.name (some argObj))

/-- Source `resultKeyNameFromField`: alias if present, else the field name. -/
def resultKeyNameFromField (field : FieldNode) : String :=
  match field.fieldAlias with
  | some a => a
  | none => field.name

/-- A value held in a store slot: a scalar primitive stored inline, an
escaped JSON blob `\x7btype:'json', json\x7d`, an escaped id
`\x7btype:'id', id, generated\x7d`, or the plain id list produced by the
array branch of the writer. -/
inductive StoreValue where
  | prim (v : JsValue)
  | json (v : JsValue)
  | idVal (id : String) (generated : Bool)
  | idList (ids : List (Option String))
deriving Repr

/-- An entity: mapping from store field key to store value, in insertion
order (JavaScript object property order). -/
abbrev StoreObject := List (String × StoreValue)

/-- The normalized cache: mapping from entity id to entity. -/
abbrev NormalizedCache := List (String × StoreObject)

/-- Source `isGeneratedId`: the id's first character is `$` (`id[0] === '$'`). -/
def isGeneratedId (id : String) : Bool :=
  id.data.head? == some '$'

/-- The `(storeValue as IdValue).id` read of the merge call site; only ever
read when the value is an `IdValue`. -/
def storeValueId : StoreValue → String
  | .idVal i _ => i
  | _ => ""

/-- JavaScript `===` between a candidate store value and a slot content as
it occurs in `writeFieldToStore`: primitives compare by value; the
candidate in the json/id/id-list branches is a freshly allocated object and
is never reference-equal to anything already in the store. -/
def jsStrictEqPrim : JsValue → JsValue → Bool
  | .undefined, .undefined => true
  | .null, .null => true
  | .bool a, .bool b => a == b
  | .num a, .num b => a == b
  | .str a, .str b => a == b
  | _, _ => false

/-- The test `storeValue !== store[dataId][storeFieldName]` (with `none`
standing for `undefined`): always true for the freshly allocated
json/id/id-list values, a primitive value comparison otherwise. -/
def strictNeqStoreValue (storeValue : StoreValue) (existing : Option StoreValue) : Bool :=
  match storeValue, existing with
  | .prim v, some (.prim w) => !jsStrictEqPrim v w
  | .prim v, none => !jsStrictEqPrim v .undefined
  | .prim _, some _ => true
  | _, _ => true

/-- The ambient inputs of a write: the variable environment, the optional
`dataIdFromObject` callback and the fragment map. -/
structure WriteContext where
  vars : JsObj
  dataIdFromObject : Option (JsValue → Option String)
  fragmentMap : List (String × SelectionSet)

mutual

/-- Source `mergeWithGenerated(generatedKey, realKey, cache)`: for every key of the
generated entity, recursively merge nested generated-id references whose
counterpart on the real entity is a reference, then delete the generated
entity and store `assign(\x7b\x7d, generated, real)` under the real key (the
delete and assignment sit inside the key loop, exactly as in the source).
Property access on a missing entity is a JavaScript `TypeError`.  The fuel
argument only bounds the (source-unbounded) recursion through the cache. -/
def mergeWithGenerated : Nat → String → String → NormalizedCache → Except WErr NormalizedCache
  | 0, _, _, _ => .error .noFuel
  | fuel+1, generatedKey, realKey, cache =>
    match alistGet? cache generatedKey with
    | none => .error (.jsTypeError "Object.keys called on undefined")
    | some generated =>
      mergeWithGeneratedLoop fuel generated (alistGet? cache realKey)
        generatedKey realKey generated cache
termination_by fuel _ _ _ => (fuel, 0)

/-- The `Object.keys(generated).forEach(...)` loop of `mergeWithGenerated`,
iterating over a snapshot of the generated entity's entries while the cache
is threaded through. -/
def mergeWithGeneratedLoop : Nat → List (String × StoreValue) → Option StoreObject →
    String → String → StoreObject → NormalizedCache → Except WErr NormalizedCache
  | _, [], _, _, _, _, cache => .ok cache
  | fuel, (key, value) :: rest, real?, generatedKey, realKey, generated, cache =>
    match real? with
    | none => .error (.jsTypeError "property read on undefined")
    | some real => do
      let cache₁ ← mergeWithGeneratedStep fuel value (alistGet? real key) cache
      let cache₂ := alistRemove cache₁ generatedKey
      let cache₃ := alistSet cache₂ realKey (jsAssign (jsAssign [] generated) real)
      mergeWithGeneratedLoop fuel rest real? generatedKey realKey generated cache₃
termination_by fuel entries _ _ _ _ _ => (fuel, entries.length + 2)

/-- One key of the merge loop: when the generated entity's value is a
generated-id reference and the real entity holds a reference under the same
key, the two referenced sub-entities are merged recursively. -/
def mergeWithGeneratedStep : Nat → StoreValue → Option StoreValue → NormalizedCache →
    Except WErr NormalizedCache
  | fuel, .idVal gid _, some (.idVal rid _), cache =>
    if isGeneratedId gid then mergeWithGenerated fuel gid rid cache
    else Except.ok cache
  | _, _, _, cache => Except.ok cache
termination_by fuel _ _ _ => (fuel, 1)

end

mutual

/-- Source `writeSelectionSetToStore`: write one selection set of the result tree
rooted at `dataId` into the store.  The fuel argument only bounds the
(source-unbounded) recursion through fragment spreads and nested values. -/
def writeSelectionSetToStore : Nat → String → JsValue → SelectionSet → NormalizedCache →
    WriteContext → Except WErr NormalizedCache
  | 0, _, _, _, _, _ => .error .noFuel
  | fuel+1, dataId, result, selectionSet, store, ctx =>
    writeSelectionsToStore fuel dataId result selectionSet.selections store ctx
termination_by fuel _ _ _ _ _ => (fuel, 0, 0)

/-- The `selectionSet.selections.forEach(...)` loop: a field whose result
value is `undefined` is skipped silently, other fields are written through
`writeFieldToStore`; inline fragments recurse with the same `dataId`, named
fragments are looked up in the fragment map (a missing one is a hard
error). -/
def writeSelectionsToStore : Nat → String → JsValue → List Selection → NormalizedCache →
    WriteContext → Except WErr NormalizedCache
  | _, _, _, [], store, _ => .ok store
  | fuel, dataId, result, .field f :: rest, store, ctx => do
      let value := jsGetField result (resultKeyNameFromField f)
      let store' ←
        if isUndef value then Except.ok store
        else do
          let r ← writeFieldToStore fuel f value dataId store ctx
          Except.ok r.1
      writeSelectionsToStore fuel dataId result rest store' ctx
  | fuel, dataId, result, .inlineFragment ss :: rest, store, ctx => do
      let store' ← writeSelectionSetToStore fuel dataId result ss store ctx
      writeSelectionsToStore fuel dataId result rest store' ctx
  | fuel, dataId, result, .fragmentSpread fname :: rest, store, ctx =>
      match alistGet? ctx.fragmentMap fname with
      | none => .error (.missingFragment fname)
      | some frag => do
          let store' ← writeSelectionSetToStore fuel dataId result frag store ctx
          writeSelectionsToStore fuel dataId result rest store' ctx
termination_by fuel _ _ sels _ _ => (fuel, 2, sels.length)

/-- Source `writeFieldToStore`: write one field of the result tree.  The returned
Bool records whether the final `store[dataId] = newStoreObj` assignment ran,
i.e. whether the entity object under `dataId` was replaced by a freshly
allocated one (the observable a reference-comparing watcher reacts to). -/
def writeFieldToStore : Nat → FieldNode → JsValue → String → NormalizedCache →
    WriteContext → Except WErr (NormalizedCache × Bool)
  | 0, _, _, _, _, _ => .error .noFuel
  | fuel+1, field, value, dataId, store, ctx => do
    let storeFieldName ← storeKeyNameFromField field ctx.vars
    let (storeValue, store₁, shouldMerge, generatedKey) ←
      if (field.selectionSet.isNone || isNullJs value) && !isObjectJs value then
        -- a scalar that is not a JSON blob is stored inline
        Except.ok (StoreValue.prim value, store, false, "")
      else if (field.selectionSet.isNone || isNullJs value) && isObjectJs value then
        -- a scalar that is a JSON blob is escaped so it cannot pretend to be an id
        Except.ok (StoreValue.json value, store, false, "")
      else
        match value with
        | .arr items => do
            -- an array with sub-objects
            let (thisIdList, store') ←
              writeArrayItems fuel field items dataId storeFieldName 0 store ctx
            Except.ok (StoreValue.idList thisIdList, store', false, "")
        | _ => do
            -- it is an object; the branch guard guarantees the field has a
            -- selection set here
            let valueDataId0 := dataId ++ "." ++ storeFieldName
            let valueDataId1 :=
              if isGeneratedId valueDataId0 then valueDataId0 else "$" ++ valueDataId0
            let (valueDataId, generated) ←
              match ctx.dataIdFromObject with
              | none => Except.ok (valueDataId1, true)
              | some idGetter =>
                match idGetter value with
                | none => Except.ok (valueDataId1, true)
                | some semanticId =>
                  if semanticId ≠ "" ∧ isGeneratedId semanticId then
                    Except.error WErr.identityViolation
                  else if semanticId ≠ "" then Except.ok (semanticId, false)
                  else Except.ok (valueDataId1, true)
            let store' ← writeSelectionSetToStore fuel valueDataId value
                (field.selectionSet.getD (SelectionSet.mk [])) store ctx
            let storeValue := StoreValue.idVal valueDataId generated
            let (shouldMerge, generatedKey) ←
              match alistGet? store' dataId with
              | none => Except.ok (false, "")
              | some entity =>
                if strictNeqStoreValue storeValue (alistGet? entity storeFieldName) then
                  match alistGet? entity storeFieldName with
                  | some (StoreValue.idVal escapedId escapedGen) =>
                    if generated && !escapedGen then
                      Except.error (WErr.identityOverwrite escapedId)
                    else if escapedGen then Except.ok (true, escapedId)
                    else Except.ok (false, "")
                  | _ => Except.ok (false, "")
                else Except.ok (false, "")
            Except.ok (storeValue, store', shouldMerge, generatedKey)
    let newStoreObj := jsAssign (jsAssign [] ((alistGet? store₁ dataId).getD []))
        [(storeFieldName, storeValue)]
    let store₂ ←
      if shouldMerge then mergeWithGenerated fuel generatedKey (storeValueId storeValue) store₁
      else Except.ok store₁
    let doAssign :=
      match alistGet? store₂ dataId with
      | none => true
      | some entity => strictNeqStoreValue storeValue (alistGet? entity storeFieldName)
    Except.ok ((if doAssign then alistSet store₂ dataId newStoreObj else store₂), doAssign)
termination_by fuel _ _ _ _ _ => (fuel, 1, 0)

/-- The `value.forEach((item, index) => ...)` loop of the array branch of
`writeFieldToStore`: null items contribute `null`, other items are written
under `dataId.storeFieldName.index` unless `dataIdFromObject` supplies a
(truthy) id — which, unlike in the object branch, is used without any
check for the `$` prefix. -/
def writeArrayItems : Nat → FieldNode → List JsValue → String → String → Nat →
    NormalizedCache → WriteContext → Except WErr (List (Option String) × NormalizedCache)
  | _, _, [], _, _, _, store, _ => .ok ([], store)
  | fuel, field, item :: rest, dataId, storeFieldName, index, store, ctx =>
    if isNullJs item then do
      let (ids, store') ←
        writeArrayItems fuel field rest dataId storeFieldName (index+1) store ctx
      Except.ok (none :: ids, store')
    else do
      let itemDataId0 := dataId ++ "." ++ storeFieldName ++ "." ++ toString index
      let itemDataId :=
        match ctx.dataIdFromObject with
        | none => itemDataId0
        | some idGetter =>
          match idGetter item with
          | some semanticId => if semanticId ≠ "" then semanticId else itemDataId0
          | none => itemDataId0
      let store' ← writeSelectionSetToStore fuel itemDataId item
          (field.selectionSet.getD (SelectionSet.mk [])) store ctx
      let (ids, store'') ←
        writeArrayItems fuel field rest dataId storeFieldName (index+1) store' ctx
      Except.ok (some itemDataId :: ids, store'')
termination_by fuel _ items _ _ _ _ _ => (fuel, 3, items.length)

end

namespace Graph

/-- A graph reference (`GraphReference`): `null`, an entity id, or a
(possibly nested) list of references. -/
inductive GRef where
  | nullRef
  | ref (id : String)
  | list (refs : List GRef)
deriving Repr

/-- A graph node (`GraphDataNode`): the `scalars` and `references` maps. -/
structure GraphNode where
  scalars : List (String × JsValue)
  references : List (String × GRef)
deriving Repr

/-- The graph (`GraphData`): mapping from node id to node. -/
abbrev GraphData := List (String × GraphNode)

/-- Error kinds of the graph writer: the internal partial-write signal (an
`Error` carrying `_partialWrite = true`) and ordinary fatal errors. -/
inductive GErr where
  | partialWrite (msg : String)
  | fatal (msg : String)
deriving Repr

/-- Modelled from the spec: `getFieldKey` lives in `src/graph/common.ts`,
which is not among the sources; the spec (section 4.1) prescribes the same
encoding as the store utilities — `fieldName` alone or `fieldName(J)` with
the serialized arguments and variables substituted — so the key is computed
by `storeKeyNameFromField`, with encoder errors mapped to fatal errors. -/
def getFieldKey (f : FieldNode) (vars : JsObj) : Except GErr String :=
  match storeKeyNameFromField f vars with
  | .ok k => .ok k
  | .error _ => .error (.fatal "unsupported argument kind")

/-- Source `maybeAddTypeName`: append `:typename` when the data object carries a
string `__typename` property. -/
def maybeAddTypeName (id : String) (data : JsObj) : String :=
  match objGet data "__typename" with
  | .str t => id ++ ":" ++ t
  | _ => id

/-- Node creation at function entry: `graph[id]` is reused when present,
otherwise a fresh empty node is added. -/
def ensureNode (graph : GraphData) (id : Option String) : GraphData :=
  match id with
  | none => graph
  | some i => if (alistGet? graph i).isSome then graph else alistSet graph i ⟨[], []⟩

/-- Mutation `node.scalars[fieldKey] = v` — a no-op when the id (and hence the node)
is null. -/
def nodeSetScalar (graph : GraphData) (id : Option String) (k : String) (v : JsValue) :
    GraphData :=
  match id with
  | none => graph
  | some i =>
    match alistGet? graph i with
    | some node => alistSet graph i ⟨alistSet node.scalars k v, node.references⟩
    | none => graph

/-- Mutation `node.references[fieldKey] = r` — a no-op when the id is null. -/
def nodeSetRef (graph : GraphData) (id : Option String) (k : String) (r : GRef) :
    GraphData :=
  match id with
  | none => graph
  | some i =>
    match alistGet? graph i with
    | some node => alistSet graph i ⟨node.scalars, alistSet node.references k r⟩
    | none => graph

mutual

/-- Source `writeToGraph` of `src/graph/write.ts`: write `data` for the selection
set at node `id` (a null id writes no node but still produces the returned
data).  Since the source mutates `graph` in place, the (possibly mutated)
graph is returned even when an error is thrown. -/
def writeToGraph : Nat → GraphData → Option String → JsObj → SelectionSet →
    List (String × SelectionSet) → JsObj → (JsValue → Option String) →
    GraphData × Except GErr JsObj
  | 0, graph, _, _, _, _, _, _ => (graph, .error (.fatal "out of fuel"))
  | fuel+1, graph, id, data, selectionSet, fragments, vars, getDataID =>
    writeGraphSelections fuel (ensureNode graph id) id data selectionSet.selections []
      fragments vars getDataID
termination_by fuel _ _ _ _ _ _ _ => (fuel, 0, 0)

/-- The `selectionSet.selections.forEach(...)` loop of `writeToGraph`,
accumulating `nextData`.  A field whose data is `undefined` throws the
partial-write signal; fragment spreads and inline fragments catch exactly
that signal, dropping the fragment data contribution while keeping the graph
mutations the fragment write already performed; other errors propagate. -/
def writeGraphSelections : Nat → GraphData → Option String → JsObj → List Selection →
    JsObj → List (String × SelectionSet) → JsObj → (JsValue → Option String) →
    GraphData × Except GErr JsObj
  | _, graph, _, _, [], nextData, _, _, _ => (graph, .ok nextData)
  | fuel, graph, id, data, .field f :: rest, nextData, fragments, vars, getDataID =>
    let fieldName := resultKeyNameFromField f
    match getFieldKey f vars with
    | .error e => (graph, .error e)
    | .ok fieldKey =>
      let fieldData := objGet data fieldName
      if isUndef fieldData then
        (graph, .error (.partialWrite ("No data found for field " ++ fieldName ++ ".")))
      else
        match f.selectionSet with
        | none =>
          writeGraphSelections fuel (nodeSetScalar graph id fieldKey fieldData) id data rest
            (alistSet nextData fieldName fieldData) fragments vars getDataID
        | some fss =>
          if isNullJs fieldData then
            writeGraphSelections fuel (nodeSetRef graph id fieldKey .nullRef) id data rest
              (alistSet nextData fieldName .null) fragments vars getDataID
          else
            match fieldData with
            | .arr items =>
              match writeArrayToStore fuel graph (id.map (fun i => i ++ "." ++ fieldKey))
                  items 0 fss fragments vars getDataID with
              | (graph2, .error e) => (graph2, .error e)
              | (graph2, .ok (refs, nextFieldData)) =>
                writeGraphSelections fuel (nodeSetRef graph2 id fieldKey (.list refs)) id data
                  rest (alistSet nextData fieldName (.arr nextFieldData)) fragments vars getDataID
            | .obj o =>
              let fieldID : Option String :=
                match getDataID (.obj o) with
                | some s => some ("(" ++ s ++ ")")
                | none => id.map (fun i => maybeAddTypeName (i ++ "." ++ fieldKey) o)
              let graph1 := nodeSetRef graph id fieldKey
                (match fieldID with | some s => .ref s | none => .nullRef)
              match writeToGraph fuel graph1 fieldID o fss fragments vars getDataID with
              | (graph2, .error e) => (graph2, .error e)
              | (graph2, .ok nextFieldData) =>
                writeGraphSelections fuel graph2 id data rest
                  (alistSet nextData fieldName (.obj nextFieldData)) fragments vars getDataID
            | _ =>
              (graph, .error (.fatal ("Expected composite data for field " ++ fieldName)))
  | fuel, graph, id, data, .fragmentSpread fragmentName :: rest, nextData, fragments, vars,
      getDataID =>
    match alistGet? fragments fragmentName with
    | none => (graph, .error (.fatal ("Could not find fragment named " ++ fragmentName ++ ".")))
    | some frag =>
      match writeToGraph fuel graph id data frag fragments vars getDataID with
      | (graph2, .ok fragmentData) =>
        writeGraphSelections fuel graph2 id data rest (jsAssign nextData fragmentData)
          fragments vars getDataID
      | (graph2, .error (.partialWrite _)) =>
        writeGraphSelections fuel graph2 id data rest nextData fragments vars getDataID
      | (graph2, .error e) => (graph2, .error e)
  | fuel, graph, id, data, .inlineFragment fss :: rest, nextData, fragments, vars, getDataID =>
    match writeToGraph fuel graph id data fss fragments vars getDataID with
    | (graph2, .ok fragmentData) =>
      writeGraphSelections fuel graph2 id data rest (jsAssign nextData fragmentData)
        fragments vars getDataID
    | (graph2, .error (.partialWrite _)) =>
      writeGraphSelections fuel graph2 id data rest nextData fragments vars getDataID
    | (graph2, .error e) => (graph2, .error e)
termination_by fuel _ _ _ sels _ _ _ _ => (fuel, 3, sels.length)

/-- Source `writeArrayToStore`: write the items of an array field, returning the
reference array and the next data array. -/
def writeArrayToStore : Nat → GraphData → Option String → List JsValue → Nat →
    SelectionSet → List (String × SelectionSet) → JsObj → (JsValue → Option String) →
    GraphData × Except GErr (List GRef × List JsValue)
  | _, graph, _, [], _, _, _, _, _ => (graph, .ok ([], []))
  | fuel, graph, id, itemData :: rest, i, ss, fragments, vars, getDataID =>
    match itemData with
    | .arr nested =>
      match writeArrayToStore fuel graph (id.map (fun x => x ++ "[" ++ toString i ++ "]"))
          nested 0 ss fragments vars getDataID with
      | (graph2, .error e) => (graph2, .error e)
      | (graph2, .ok (itemRefs, nextItemData)) =>
        match writeArrayToStore fuel graph2 id rest (i+1) ss fragments vars getDataID with
        | (graph3, .error e) => (graph3, .error e)
        | (graph3, .ok (refs, datas)) =>
          (graph3, .ok (.list itemRefs :: refs, .arr nextItemData :: datas))
    | .null =>
      match writeArrayToStore fuel graph id rest (i+1) ss fragments vars getDataID with
      | (graph2, .error e) => (graph2, .error e)
      | (graph2, .ok (refs, datas)) => (graph2, .ok (.nullRef :: refs, .null :: datas))
    | .obj o =>
      let itemID : Option String :=
        match getDataID (.obj o) with
        | some s => some ("(" ++ s ++ ")")
        | none => id.map (fun x => maybeAddTypeName (x ++ "[" ++ toString i ++ "]") o)
      match writeToGraph fuel graph itemID o ss fragments vars getDataID with
      | (graph2, .error e) => (graph2, .error e)
      | (graph2, .ok nextItemData) =>
        match writeArrayToStore fuel graph2 id rest (i+1) ss fragments vars getDataID with
        | (graph3, .error e) => (graph3, .error e)
        | (graph3, .ok (refs, datas)) =>
          (graph3, .ok ((match itemID with | some s => GRef.ref s | none => GRef.nullRef) :: refs,
            .obj nextItemData :: datas))
    | _ => (graph, .error (.fatal "Expected composite data in array to be null or an object."))
termination_by fuel _ _ items _ _ _ _ _ => (fuel, 2, sizeOf items)

end

end Graph

namespace Optimistic

/-- Modelled from the spec: one optimistic layer of the stack described in
section 4.4 — its mutation id, the recorded write function (kept so the
layer can be replayed on rebase) and the diff it produced when it was last
applied.  The optimistic layer stack itself is not among the sources (only
its test suite is), so this component is modelled from the spec. -/
structure Layer where
  mutationId : String
  writeFn : NormalizedCache → NormalizedCache
  diff : NormalizedCache

/-- Modelled from the spec: the base store plus the ordered layer stack,
bottom layer first. -/
structure OptimisticState where
  base : NormalizedCache
  layers : List Layer

/-- Modelled from the spec: apply a layer diff over a store at field
granularity — each diff entity's fields shadow the fields of the underlying
entity with the same id. -/
def applyDiff (store diff : NormalizedCache) : NormalizedCache :=
  diff.foldl (fun acc e =>
    alistSet acc e.1 (jsAssign (jsAssign [] ((alistGet? acc e.1).getD [])) e.2)) store

/-- Modelled from the spec: the effective store read through the stack —
the base overlaid by the layer diffs, later layers shadowing earlier ones. -/
def effectiveStore (s : OptimisticState) : NormalizedCache :=
  s.layers.foldl (fun acc l => applyDiff acc l.diff) s.base

/-- Modelled from the spec: `recordOptimistic(mutationId, writeFn)` — run
the write function against the current effective store to obtain a fresh
diff and push it as the new top layer. -/
def recordOptimistic (m : String) (writeFn : NormalizedCache → NormalizedCache)
    (s : OptimisticState) : OptimisticState :=
  ⟨s.base, s.layers ++ [⟨m, writeFn, writeFn (effectiveStore s)⟩]⟩

/-- Modelled from the spec: `removeOptimistic(mutationId)` — drop the
matching layer and rebase the layers above it by replaying their recorded
write functions, in their original order, against the new effective base. -/
def removeOptimistic (m : String) (s : OptimisticState) : OptimisticState :=
  match s.layers.dropWhile (fun l => l.mutationId != m) with
  | [] => ⟨s.base, s.layers.takeWhile (fun l => l.mutationId != m)⟩
  | _ :: above =>
    above.foldl (fun acc l => recordOptimistic l.mutationId l.writeFn acc)
      ⟨s.base, s.layers.takeWhile (fun l => l.mutationId != m)⟩

end Optimistic


/-! ### Helper lemmas -/

/-- JavaScript `===` is reflexive on primitive (non-object) values. -/
theorem jsStrictEqPrim_refl (v : JsValue) (h : isObjectJs v = false) :
    jsStrictEqPrim v v = true := by
  cases v <;> simp_all [jsStrictEqPrim, isObjectJs]

/-- Looking up the key just assigned yields the assigned value. -/
theorem alistGet?_alistSet_self {α : Type} (l : List (String × α)) (k : String) (v : α) :
    alistGet? (alistSet l k v) k = some v := by
  induction l with
  | nil => simp [alistSet, alistGet?]
  | cons p rest ih =>
    by_cases h : p.1 = k <;>
      simp [alistSet, alistGet?, h, ih]

/-- Appending a non-`$` suffix does not change whether an id is generated. -/
theorem isGeneratedId_append (a b : String) (hb : isGeneratedId b = false) :
    isGeneratedId (a ++ b) = isGeneratedId a := by
  unfold isGeneratedId at hb ⊢
  rw [String.data_append]
  cases hd : a.data with
  | nil => simp [hb]
  | cons c cs => simp

/-- An id starting with the `$` character is generated. -/
theorem isGeneratedId_dollar (s : String) : isGeneratedId ("$" ++ s) = true := by
  unfold isGeneratedId
  rw [String.data_append]
  rfl

/-- Appending a nonempty suffix changes a string. -/
theorem append_right_ne (a s : String) (hs : s.length ≠ 0) : a ++ s ≠ a := by
  intro h
  have h2 := congrArg String.length h
  rw [String.length_append] at h2
  omega

/-- A `$`-prefixed id differs from every non-generated id. -/
theorem dollar_append_ne (a b : String) (hb : isGeneratedId b = false) : "$" ++ a ≠ b := by
  intro h
  rw [← h, isGeneratedId_dollar] at hb
  exact absurd hb (by simp)

/-! ### Shared fixtures -/

/-- A field with no alias and no arguments. -/
def plainField (n : String) (ss : Option SelectionSet) : FieldNode :=
  FieldNode.mk n none [] ss

/-- A selection set consisting of scalar fields. -/
def scalarSelections (names : List String) : SelectionSet :=
  SelectionSet.mk (names.map fun n => Selection.field (plainField n none))

/-- A write context with no variables, no `dataIdFromObject` and no
fragments. -/
def noIdCtx : WriteContext := ⟨[], none, []⟩

/-! ### C1: field-key determinism and canonicity -/

/-- Claim C1 fixture: field `f` with one object argument, keys in the order
`x`, `y`. -/
def c1FieldXY : FieldNode :=
  FieldNode.mk "f" none [("a", .objectValue [("x", .intValue 1), ("y", .intValue 2)])] none

/-- Claim C1 fixture: the logically equal argument tree with the object
keys given in the order `y`, `x`. -/
def c1FieldYX : FieldNode :=
  FieldNode.mk "f" none [("a", .objectValue [("y", .intValue 2), ("x", .intValue 1)])] none

/-- C1, counterexample: the two fields carry logically equal argument trees
(the same object argument with its keys in swapped order), yet the encoder
produces different store keys byte for byte, because `JSON.stringify`
serializes the argument object in insertion order rather than canonically. -/
theorem c1_field_key_reorder_counterexample :
    storeKeyNameFromField c1FieldXY [] = .ok "f(\x7b\"a\":\x7b\"x\":1,\"y\":2\x7d\x7d)" ∧
    storeKeyNameFromField c1FieldYX [] = .ok "f(\x7b\"a\":\x7b\"y\":2,\"x\":1\x7d\x7d)" ∧
    storeKeyNameFromField c1FieldXY [] ≠ storeKeyNameFromField c1FieldYX [] := by
  have h1 : storeKeyNameFromField c1FieldXY [] = .ok "f(\x7b\"a\":\x7b\"x\":1,\"y\":2\x7d\x7d)" := by
    simp [c1FieldXY, storeKeyNameFromField, buildFieldArgs, valueToObjectRepresentation,
      valueFieldsToObjectRepresentation, storeKeyNameFromFieldNameAndArgs,
      FieldNode.arguments, FieldNode.name, Bind.bind, Except.bind, alistSet]
    decide
  have h2 : storeKeyNameFromField c1FieldYX [] = .ok "f(\x7b\"a\":\x7b\"y\":2,\"x\":1\x7d\x7d)" := by
    simp [c1FieldYX, storeKeyNameFromField, buildFieldArgs, valueToObjectRepresentation,
      valueFieldsToObjectRepresentation, storeKeyNameFromFieldNameAndArgs,
      FieldNode.arguments, FieldNode.name, Bind.bind, Except.bind, alistSet]
    decide
  refine ⟨h1, h2, ?_⟩
  rw [h1, h2]
  simp

/-- C1, amended: the field-key encoder is a deterministic pure function of
the field name, the argument AST in document order, and the variable
environment.  The alias and the sub-selection never influence the key; a
field without arguments is keyed by its bare name; a field with arguments
is keyed `fieldName(J)` where `J` is the insertion-ordered `JSON.stringify`
serialization of the converted argument object.  The original claim's
invariance under argument-object key reordering is the part refuted by the
counterexample: reordering changes `J`. -/
theorem c1_field_key_amended (name : String) (al : Option String)
    (args : List (String × ValueNode)) (ss : Option SelectionSet) (vars : JsObj) :
    storeKeyNameFromField (FieldNode.mk name al args ss) vars
      = storeKeyNameFromField (FieldNode.mk name none args none) vars ∧
    (args = [] → storeKeyNameFromField (FieldNode.mk name al args ss) vars = .ok name) ∧
    (∀ argObj, buildFieldArgs args [] vars = .ok argObj → args ≠ [] →
      storeKeyNameFromField (FieldNode.mk name al args ss) vars
        = .ok (name ++ "(" ++ jsonStringify (.obj argObj) ++ ")")) := by
  refine ⟨rfl, ?_, ?_⟩
  · intro h
    subst h
    rfl
  · intro argObj hb hne
    match args, hne with
    | a :: rest, _ =>
      simp [storeKeyNameFromField, FieldNode.arguments, FieldNode.name,
        storeKeyNameFromFieldNameAndArgs, Bind.bind, Except.bind, hb]

/-- Witness for the amended C1 at concrete inputs. -/
theorem c1_field_key_amended_witness :
    storeKeyNameFromField (FieldNode.mk "g" (some "al") [] none) [] = .ok "g" ∧
    storeKeyNameFromField (FieldNode.mk "f" none [("a", .intValue 1)] none) []
      = .ok ("f" ++ "(" ++ jsonStringify (.obj [("a", .num 1)]) ++ ")") := by
  refine ⟨(c1_field_key_amended "g" (some "al") [] none []).2.1 rfl,
    (c1_field_key_amended "f" none [("a", .intValue 1)] none []).2.2 [("a", .num 1)] ?_ ?_⟩
  · simp [buildFieldArgs, valueToObjectRepresentation, alistSet, Bind.bind, Except.bind]
  · simp

/-! ### C9: unbound variables are serialized away -/

/-- C9: an argument whose value is a variable not bound in the environment
is substituted as `undefined` rather than raising an error, and the JSON
serialization omits that argument from the store key: a field with one such
argument is keyed `fieldName(\x7b\x7d)`. -/
theorem c9_unbound_variable_omitted (fname aname vname : String) (vars : JsObj)
    (h : alistGet? vars vname = none) :
    storeKeyNameFromField (FieldNode.mk fname none [(aname, .varNode vname)] none) vars
      = .ok (fname ++ "(\x7b\x7d)") := by
  simp [storeKeyNameFromField, buildFieldArgs, valueToObjectRepresentation, objGet, h,
    alistSet, storeKeyNameFromFieldNameAndArgs, jsonStringify, jsonStringifyVal,
    jsonStringifyFields, FieldNode.arguments, FieldNode.name, Bind.bind, Except.bind,
    String.intercalate, String.append_assoc]

/-- Witness for C9 at concrete inputs. -/
theorem c9_unbound_variable_omitted_witness :
    storeKeyNameFromField (FieldNode.mk "f" none [("x", .varNode "v")] none) []
      = .ok ("f" ++ "(\x7b\x7d)") :=
  c9_unbound_variable_omitted "f" "x" "v" [] rfl

/-! ### C10: undefined result fields are skipped -/

/-- C10: a field selection whose response key (alias or name) maps to
`undefined` in the result is skipped entirely by the selection loop of
`writeSelectionSetToStore`: writing a selection list containing the field
equals writing the same list without it — no store write for the field, no
error or partial-write signal, and any existing store value at its slot is
left unchanged. -/
theorem c10_undefined_field_skipped (fuel : Nat) (dataId : String) (result : JsValue)
    (f : FieldNode) (pre post : List Selection) (store : NormalizedCache) (ctx : WriteContext)
    (h : isUndef (jsGetField result (resultKeyNameFromField f)) = true) :
    writeSelectionsToStore fuel dataId result (pre ++ Selection.field f :: post) store ctx
      = writeSelectionsToStore fuel dataId result (pre ++ post) store ctx := by
  induction pre generalizing store with
  | nil => simp [writeSelectionsToStore, h, Bind.bind, Except.bind]
  | cons s rest ih =>
    cases s with
    | field g =>
      by_cases hv : isUndef (jsGetField result (resultKeyNameFromField g)) = true
      · simp only [List.cons_append, writeSelectionsToStore]
        simp [hv, Bind.bind, Except.bind, ih]
      · simp only [List.cons_append, writeSelectionsToStore]
        cases hw : writeFieldToStore fuel g (jsGetField result (resultKeyNameFromField g))
            dataId store ctx with
        | error e => simp [hv, hw, Bind.bind, Except.bind]
        | ok r => simp [hv, hw, Bind.bind, Except.bind, ih]
    | inlineFragment ss =>
      simp only [List.cons_append, writeSelectionsToStore]
      cases hw : writeSelectionSetToStore fuel dataId result ss store ctx with
      | error e => simp [hw, Bind.bind, Except.bind]
      | ok st => simp [hw, Bind.bind, Except.bind, ih]
    | fragmentSpread n =>
      simp only [List.cons_append, writeSelectionsToStore]
      cases hm : alistGet? ctx.fragmentMap n with
      | none => simp [hm]
      | some frag =>
        cases hw : writeSelectionSetToStore fuel dataId result frag store ctx with
        | error e => simp [hm, hw, Bind.bind, Except.bind]
        | ok st => simp [hm, hw, Bind.bind, Except.bind, ih]

/-- Witness for C10 at concrete inputs: the result `\x7ba: 1\x7d` has no
data for field `b`, so the write of `[b, a]` equals the write of `[a]`. -/
theorem c10_undefined_field_skipped_witness :
    writeSelectionsToStore 9 "Q" (.obj [("a", .num 1)])
      [Selection.field (plainField "b" none), Selection.field (plainField "a" none)] [] noIdCtx
      = writeSelectionsToStore 9 "Q" (.obj [("a", .num 1)])
          [Selection.field (plainField "a" none)] [] noIdCtx :=
  c10_undefined_field_skipped 9 "Q" (.obj [("a", .num 1)]) (plainField "b" none) []
    [Selection.field (plainField "a" none)] [] noIdCtx rfl

/-! ### C7: idempotence of repeated writes -/

/-- Unfolding of `writeFieldToStore` in the scalar branch: the value is
stored inline; the entity object is replaced exactly when the slot content
is not strictly equal to the value. -/
theorem writeFieldToStore_scalar (fuel : Nat) (f : FieldNode) (v : JsValue) (dataId k : String)
    (store : NormalizedCache) (ctx : WriteContext)
    (hsel : f.selectionSet = none) (hobj : isObjectJs v = false)
    (hkey : storeKeyNameFromField f ctx.vars = .ok k) :
    writeFieldToStore (fuel+1) f v dataId store ctx =
      .ok ((if (alistGet? store dataId).elim true
                (fun entity => strictNeqStoreValue (.prim v) (alistGet? entity k)) = true then
              alistSet store dataId
                (jsAssign (jsAssign [] ((alistGet? store dataId).getD [])) [(k, .prim v)])
            else store),
           (alistGet? store dataId).elim true
             (fun entity => strictNeqStoreValue (.prim v) (alistGet? entity k))) := by
  cases hga : alistGet? store dataId <;>
    simp [writeFieldToStore, hkey, hsel, hobj, Bind.bind, Except.bind, hga]

/-- C7, amended: for scalar (primitive) field values, writing the same
`(id, fieldKey, value)` twice leaves the store bitwise unchanged after the
second write — the second write returns the incoming store itself with the
assignment flag false, so the entity object is not replaced and no watcher
is notified.  (For fields holding references, lists or JSON blobs, the
counterexample shows that a second identical write re-runs the entity
assignment, replacing the entity object with a structurally equal but
freshly allocated one.) -/
theorem c7_scalar_idempotent_amended (fuel1 fuel2 : Nat) (f : FieldNode) (v : JsValue)
    (dataId k : String) (store store1 : NormalizedCache) (ctx : WriteContext) (b : Bool)
    (hsel : f.selectionSet = none) (hobj : isObjectJs v = false)
    (hkey : storeKeyNameFromField f ctx.vars = .ok k)
    (h1 : writeFieldToStore (fuel1+1) f v dataId store ctx = .ok (store1, b)) :
    writeFieldToStore (fuel2+1) f v dataId store1 ctx = .ok (store1, false) := by
  rw [writeFieldToStore_scalar fuel1 f v dataId k store ctx hsel hobj hkey] at h1
  rw [writeFieldToStore_scalar fuel2 f v dataId k store1 ctx hsel hobj hkey]
  rcases hga : alistGet? store dataId with _ | entity
  · simp only [hga, Option.elim, Option.getD, if_pos, Except.ok.injEq, Prod.mk.injEq] at h1
    obtain ⟨h1a, _⟩ := h1
    subst h1a
    simp [alistGet?_alistSet_self, jsAssign, strictNeqStoreValue, jsStrictEqPrim_refl v hobj]
  · cases hda : strictNeqStoreValue (StoreValue.prim v) (alistGet? entity k) with
    | false =>
      simp only [hga, hda, Option.elim, Bool.false_eq_true, if_false, Except.ok.injEq,
        Prod.mk.injEq] at h1
      obtain ⟨h1a, _⟩ := h1
      subst h1a
      simp [hga, hda]
    | true =>
      simp only [hga, hda, Option.elim, Option.getD, if_pos, Except.ok.injEq,
        Prod.mk.injEq] at h1
      obtain ⟨h1a, _⟩ := h1
      subst h1a
      simp [alistGet?_alistSet_self, jsAssign, strictNeqStoreValue, jsStrictEqPrim_refl v hobj]

/-- Claim C7 fixture: a scalar field holding a JSON blob. -/
def c7MetaField : FieldNode := plainField "meta" none

/-- Claim C7 fixture: the store after the first blob write. -/
def c7Store1 : NormalizedCache := [("ROOT_QUERY", [("meta", .json (.obj [("a", .num 1)]))])]

/-- C7, counterexample: writing the same `(id, fieldKey, value)` twice with
a JSON-blob value.  The second, byte-identical write allocates a fresh
escaped value, so the strict-equality guard cannot fire and the final
assignment runs again (flag `true`), replacing the entity object under
`ROOT_QUERY` by a freshly allocated one — a reference-comparing watcher is
notified of the write, contradicting the claim. -/
theorem c7_rewrite_counterexample :
    writeFieldToStore 9 c7MetaField (.obj [("a", .num 1)]) "ROOT_QUERY" [] noIdCtx
      = .ok (c7Store1, true) ∧
    writeFieldToStore 9 c7MetaField (.obj [("a", .num 1)]) "ROOT_QUERY" c7Store1 noIdCtx
      = .ok (c7Store1, true) := by
  constructor <;>
    simp [c7MetaField, plainField, c7Store1, noIdCtx, writeFieldToStore, storeKeyNameFromField,
      alistSet, alistGet?, jsAssign, isNullJs, isObjectJs, strictNeqStoreValue, jsStrictEqPrim,
      FieldNode.arguments, FieldNode.name, FieldNode.selectionSet, storeValueId,
      Bind.bind, Except.bind]

/-- Witness for the amended C7 at concrete inputs: rewriting the already
present scalar `x = 5` leaves the store untouched and unflagged. -/
theorem c7_scalar_idempotent_witness :
    writeFieldToStore 9 (plainField "x" none) (.num 5) "Q"
      [("Q", [("x", .prim (.num 5))])] noIdCtx
      = .ok ([("Q", [("x", .prim (.num 5))])], false) := by
  apply c7_scalar_idempotent_amended 8 8 (plainField "x" none) (.num 5) "Q" "x" [] _ noIdCtx true
    rfl rfl rfl
  simp [plainField, noIdCtx, writeFieldToStore, storeKeyNameFromField, alistSet, alistGet?,
    jsAssign, isNullJs, isObjectJs, strictNeqStoreValue, jsStrictEqPrim,
    FieldNode.arguments, FieldNode.name, FieldNode.selectionSet, storeValueId,
    Bind.bind, Except.bind]

/-! ### C2: the shape of synthetic ids -/

/-- Claim C2/C3 fixture: an array field of objects with one scalar. -/
def c2TodosField : FieldNode := plainField "todos" (some (scalarSelections ["text"]))

/-- Claim C2/C3 fixture: an object field with one scalar. -/
def c2UserField : FieldNode := plainField "user" (some (scalarSelections ["text"]))

/-- C2, counterexample: the write path generates the id `ROOT_QUERY.todos.0`
for the element of a nested array whose object has no caller-supplied id —
an id that does not begin with `$`, contradicting the claim that every
synthetic id is of the form `$<parentId>.<fieldKey>.<index>`. -/
theorem c2_array_id_counterexample :
    writeFieldToStore 9 c2TodosField (.arr [.obj [("text", .str "hi")]]) "ROOT_QUERY" [] noIdCtx
      = .ok ([("ROOT_QUERY.todos.0", [("text", .prim (.str "hi"))]),
              ("ROOT_QUERY", [("todos", .idList [some "ROOT_QUERY.todos.0"])])], true) ∧
    isGeneratedId "ROOT_QUERY.todos.0" = false := by
  constructor
  · simp [c2TodosField, plainField, scalarSelections, noIdCtx, writeFieldToStore,
      writeSelectionSetToStore, writeSelectionsToStore, writeArrayItems, storeKeyNameFromField,
      alistSet, alistGet?, jsAssign, jsGetField, objGet, isUndef, isNullJs, isObjectJs,
      strictNeqStoreValue, jsStrictEqPrim, resultKeyNameFromField, FieldNode.arguments,
      FieldNode.name, FieldNode.fieldAlias, FieldNode.selectionSet, SelectionSet.selections,
      isGeneratedId, storeValueId, Bind.bind, Except.bind,
      show toString (0 : Nat) = "0" from rfl]
  · decide

/-- C2, amended: synthetic ids are deterministic from the write path, but
only the nested-object branch carries the `$` namespace.  For any parent id
that is not itself generated: the object branch stores the child under
`$<parentId>.<fieldKey>` (the `$` prepended exactly because the parent id is
not generated, as the second pair of conjuncts shows for a generated
parent), while the array branch stores element `i` under
`<parentId>.<fieldKey>.<i>` without any `$` prefix, so that id begins with
`$` only when the parent id does. -/
theorem c2_synthetic_id_amended (dataId txt : String) (h : isGeneratedId dataId = false) :
    writeFieldToStore 9 c2TodosField (.arr [.obj [("text", .str txt)]]) dataId [] noIdCtx
      = .ok ([(dataId ++ ".todos.0", [("text", .prim (.str txt))]),
              (dataId, [("todos", .idList [some (dataId ++ ".todos.0")])])], true) ∧
    isGeneratedId (dataId ++ ".todos.0") = false ∧
    writeFieldToStore 9 c2UserField (.obj [("text", .str txt)]) dataId [] noIdCtx
      = .ok ([("$" ++ dataId ++ ".user", [("text", .prim (.str txt))]),
              (dataId, [("user", .idVal ("$" ++ dataId ++ ".user") true)])], true) ∧
    isGeneratedId ("$" ++ dataId ++ ".user") = true ∧
    writeFieldToStore 9 c2UserField (.obj [("text", .str txt)]) ("$" ++ dataId) [] noIdCtx
      = .ok ([("$" ++ dataId ++ ".user", [("text", .prim (.str txt))]),
              ("$" ++ dataId, [("user", .idVal ("$" ++ dataId ++ ".user") true)])], true) := by
  have hitem : isGeneratedId (dataId ++ ".todos.0") = false := by
    rw [isGeneratedId_append dataId ".todos.0" (by decide)]
    exact h
  have hne1 : dataId ++ ".todos.0" ≠ dataId := append_right_ne dataId ".todos.0" (by decide)
  have huser : isGeneratedId (dataId ++ ".user") = false := by
    rw [isGeneratedId_append dataId ".user" (by decide)]
    exact h
  have hne2 : "$" ++ (dataId ++ ".user") ≠ dataId := dollar_append_ne (dataId ++ ".user") dataId h
  have hpuser : isGeneratedId ("$" ++ dataId ++ ".user") = true := by
    rw [String.append_assoc]
    exact isGeneratedId_dollar (dataId ++ ".user")
  have hne3 : "$" ++ (dataId ++ ".user") ≠ "$" ++ dataId := by
    rw [← String.append_assoc]
    exact append_right_ne ("$" ++ dataId) ".user" (by decide)
  refine ⟨?_, hitem, ?_, hpuser, ?_⟩
  · simp [c2TodosField, plainField, scalarSelections, noIdCtx, writeFieldToStore,
      writeSelectionSetToStore, writeSelectionsToStore, writeArrayItems, storeKeyNameFromField,
      alistSet, alistGet?, jsAssign, jsGetField, objGet, isUndef, isNullJs, isObjectJs,
      strictNeqStoreValue, jsStrictEqPrim, resultKeyNameFromField, FieldNode.arguments,
      FieldNode.name, FieldNode.fieldAlias, FieldNode.selectionSet, SelectionSet.selections,
      storeValueId, Bind.bind, Except.bind, String.append_assoc, hne1,
      show toString (0 : Nat) = "0" from rfl]
  · simp [c2UserField, plainField, scalarSelections, noIdCtx, writeFieldToStore,
      writeSelectionSetToStore, writeSelectionsToStore, storeKeyNameFromField,
      alistSet, alistGet?, jsAssign, jsGetField, objGet, isUndef, isNullJs, isObjectJs,
      strictNeqStoreValue, jsStrictEqPrim, resultKeyNameFromField, FieldNode.arguments,
      FieldNode.name, FieldNode.fieldAlias, FieldNode.selectionSet, SelectionSet.selections,
      storeValueId, Bind.bind, Except.bind, String.append_assoc, huser, hne2]
  · simp [c2UserField, plainField, scalarSelections, noIdCtx, writeFieldToStore,
      writeSelectionSetToStore, writeSelectionsToStore, storeKeyNameFromField,
      alistSet, alistGet?, jsAssign, jsGetField, objGet, isUndef, isNullJs, isObjectJs,
      strictNeqStoreValue, jsStrictEqPrim, resultKeyNameFromField, FieldNode.arguments,
      FieldNode.name, FieldNode.fieldAlias, FieldNode.selectionSet, SelectionSet.selections,
      storeValueId, Bind.bind, Except.bind, String.append_assoc,
      isGeneratedId_dollar, hne3]

/-- Witness for the amended C2 at a concrete parent id. -/
theorem c2_synthetic_id_amended_witness :
    writeFieldToStore 9 c2TodosField (.arr [.obj [("text", .str "hi")]]) "Q" [] noIdCtx
      = .ok ([("Q" ++ ".todos.0", [("text", .prim (.str "hi"))]),
              ("Q", [("todos", .idList [some ("Q" ++ ".todos.0")])])], true) :=
  (c2_synthetic_id_amended "Q" "hi" rfl).1

/-! ### C3: rejection of `$`-prefixed caller ids -/

/-- Claim C3 fixture: a context whose `dataIdFromObject` always returns the
`$`-prefixed id `$evil`. -/
def evilIdCtx : WriteContext := ⟨[], some (fun _ => some "$evil"), []⟩

/-- C3, counterexample: when `dataIdFromObject` returns the `$`-prefixed id
`$evil` for the element of a nested array, the write succeeds and stores
`$evil` as an entity id — no IdentityViolation error is raised, because the
array branch performs no `$` check. -/
theorem c3_array_accepts_dollar_counterexample :
    writeFieldToStore 9 c2TodosField (.arr [.obj [("text", .str "hi")]]) "ROOT_QUERY" [] evilIdCtx
      = .ok ([("$evil", [("text", .prim (.str "hi"))]),
              ("ROOT_QUERY", [("todos", .idList [some "$evil"])])], true) ∧
    isGeneratedId "$evil" = true := by
  constructor
  · simp [c2TodosField, plainField, scalarSelections, evilIdCtx, writeFieldToStore,
      writeSelectionSetToStore, writeSelectionsToStore, writeArrayItems, storeKeyNameFromField,
      alistSet, alistGet?, jsAssign, jsGetField, objGet, isUndef, isNullJs, isObjectJs,
      strictNeqStoreValue, jsStrictEqPrim, resultKeyNameFromField, FieldNode.arguments,
      FieldNode.name, FieldNode.fieldAlias, FieldNode.selectionSet, SelectionSet.selections,
      storeValueId, Bind.bind, Except.bind]
  · decide

/-- C3, amended: only the directly-nested-object branch rejects ids
beginning with `$`: there, any truthy `$`-prefixed id from
`dataIdFromObject` raises the IdentityViolation error before anything is
stored — for every result object, parent id, incoming store and fuel — while
the array branch accepts such an id without a check and stores it as the
element's entity id. -/
theorem c3_identity_violation_amended (fuel : Nat) (o : JsObj) (dataId s : String)
    (store : NormalizedCache) (vars : JsObj) (fm : List (String × SelectionSet))
    (hgen : isGeneratedId s = true) (hne : s ≠ "")
    (hnr : s ≠ "ROOT_QUERY") :
    writeFieldToStore (fuel+1) c2UserField (.obj o) dataId store
        ⟨vars, some (fun _ => some s), fm⟩
      = .error .identityViolation ∧
    writeFieldToStore 9 c2TodosField (.arr [.obj [("text", .str "hi")]]) "ROOT_QUERY" []
        ⟨[], some (fun _ => some s), []⟩
      = .ok ([(s, [("text", .prim (.str "hi"))]),
              ("ROOT_QUERY", [("todos", .idList [some s])])], true) := by
  constructor
  · simp [c2UserField, plainField, scalarSelections, writeFieldToStore, storeKeyNameFromField,
      isNullJs, isObjectJs, FieldNode.arguments, FieldNode.name, FieldNode.selectionSet,
      Bind.bind, Except.bind, hgen, hne]
  · simp [c2TodosField, plainField, scalarSelections, writeFieldToStore,
      writeSelectionSetToStore, writeSelectionsToStore, writeArrayItems, storeKeyNameFromField,
      alistSet, alistGet?, jsAssign, jsGetField, objGet, isUndef, isNullJs, isObjectJs,
      strictNeqStoreValue, jsStrictEqPrim, resultKeyNameFromField, FieldNode.arguments,
      FieldNode.name, FieldNode.fieldAlias, FieldNode.selectionSet, SelectionSet.selections,
      storeValueId, Bind.bind, Except.bind, hne, hnr]

/-- Witness for the amended C3 at concrete inputs. -/
theorem c3_identity_violation_amended_witness :
    writeFieldToStore 9 c2UserField (.obj [("text", .str "hi")]) "ROOT_QUERY" []
        ⟨[], some (fun _ => some "$evil"), []⟩
      = .error .identityViolation :=
  (c3_identity_violation_amended 8 [("text", .str "hi")] "ROOT_QUERY" "$evil" [] [] []
    rfl (by decide) (by decide)).1

/-! ### C4: overwrite protection for durable identities -/

/-- Claim C4 fixture: an object field with one scalar sub-field `name`. -/
def c4UserField : FieldNode := plainField "user" (some (scalarSelections ["name"]))

/-- Claim C4 fixture: a context whose `dataIdFromObject` always yields the
real id `User42`. -/
def user42Ctx : WriteContext := ⟨[], some (fun _ => some "User42"), []⟩

/-- C4: writing a generated (synthetic) reference into a slot holding a
non-generated (real) reference fails with the IdentityOverwrite error naming
the existing real id (first conjunct, for every existing real id and
payload); writing a real reference over a real reference proceeds without
that error, plainly overwriting the slot (second conjunct); and writing a
generated reference over a generated reference proceeds and triggers
reconciliation — observable here in that the generated entity is deleted and
re-inserted at the end of the cache by the merge (third conjunct). -/
theorem c4_identity_overwrite (oldId nm nm2 : String) :
    writeFieldToStore 9 c4UserField (.obj [("name", .str nm)]) "ROOT_QUERY"
        [("ROOT_QUERY", [("user", .idVal oldId false)])] noIdCtx
      = .error (.identityOverwrite oldId) ∧
    writeFieldToStore 9 c4UserField (.obj [("name", .str nm2)]) "ROOT_QUERY"
        [("ROOT_QUERY", [("user", .idVal "User1" false)])] user42Ctx
      = .ok ([("ROOT_QUERY", [("user", .idVal "User42" false)]),
              ("User42", [("name", .prim (.str nm2))])], true) ∧
    writeFieldToStore 9 c4UserField (.obj [("name", .str "new")]) "ROOT_QUERY"
        [("$ROOT_QUERY.user", [("name", .prim (.str "old"))]),
         ("ROOT_QUERY", [("user", .idVal "$ROOT_QUERY.user" true)])] noIdCtx
      = .ok ([("ROOT_QUERY", [("user", .idVal "$ROOT_QUERY.user" true)]),
              ("$ROOT_QUERY.user", [("name", .prim (.str "new"))])], true) := by
  refine ⟨?_, ?_, ?_⟩ <;>
    simp [c4UserField, plainField, scalarSelections, noIdCtx, user42Ctx, writeFieldToStore,
      writeSelectionSetToStore, writeSelectionsToStore, storeKeyNameFromField,
      mergeWithGenerated, mergeWithGeneratedLoop, mergeWithGeneratedStep, alistRemove,
      alistSet, alistGet?, jsAssign, jsGetField, objGet, isUndef, isNullJs, isObjectJs,
      strictNeqStoreValue, jsStrictEqPrim, resultKeyNameFromField, FieldNode.arguments,
      FieldNode.name, FieldNode.fieldAlias, FieldNode.selectionSet, SelectionSet.selections,
      isGeneratedId, storeValueId, Bind.bind, Except.bind]

/-! ### C5: reconciliation of a synthetic entity into a real one -/

/-- Claim C5 fixture: the user selection set — two scalars and a nested
object field `address`. -/
def c5UserSS : SelectionSet := SelectionSet.mk
  [Selection.field (plainField "name" none),
   Selection.field (plainField "age" none),
   Selection.field (plainField "address" (some (scalarSelections ["city"])))]

/-- Claim C5 fixture: the parent field carrying the user object. -/
def c5UserField : FieldNode := plainField "user" (some c5UserSS)

/-- Claim C5 fixture: `dataIdFromObject` reads a `uid` string property. -/
def uidCtx : WriteContext :=
  ⟨[], some (fun v =>
    match v with
    | .obj o =>
      match objGet o "uid" with
      | .str s => some s
      | _ => none
    | _ => none), []⟩

/-- C5: write a user object for which identify yields no id (creating the
synthetic entities `$ROOT_QUERY.user` and `$ROOT_QUERY.user.address`), then
write the same logical object carrying the real id `User42` at the same
parent slot.  After the second write both synthetic entities are deleted
from the store; the real-id entity holds the merged fields with the real
write's values winning on collision (`name`, and `city` on the recursively
merged address sub-entity) while the synthetic-only field `age` survives the
merge; and the parent slot points at the real id. -/
theorem c5_reconciliation_absorbs_synthetic (synName realName synCity realCity : String)
    (age : Int) :
    writeFieldToStore 9 c5UserField
        (.obj [("name", .str synName), ("age", .num age),
               ("address", .obj [("city", .str synCity)])])
        "ROOT_QUERY" [] uidCtx
      = .ok ([("$ROOT_QUERY.user",
                [("name", .prim (.str synName)), ("age", .prim (.num age)),
                 ("address", .idVal "$ROOT_QUERY.user.address" true)]),
              ("$ROOT_QUERY.user.address", [("city", .prim (.str synCity))]),
              ("ROOT_QUERY", [("user", .idVal "$ROOT_QUERY.user" true)])], true) ∧
    writeFieldToStore 9 c5UserField
        (.obj [("uid", .str "User42"), ("name", .str realName),
               ("address", .obj [("city", .str realCity)])])
        "ROOT_QUERY"
        [("$ROOT_QUERY.user",
           [("name", .prim (.str synName)), ("age", .prim (.num age)),
            ("address", .idVal "$ROOT_QUERY.user.address" true)]),
         ("$ROOT_QUERY.user.address", [("city", .prim (.str synCity))]),
         ("ROOT_QUERY", [("user", .idVal "$ROOT_QUERY.user" true)])] uidCtx
      = .ok ([("ROOT_QUERY", [("user", .idVal "User42" false)]),
              ("User42",
                [("name", .prim (.str realName)), ("age", .prim (.num age)),
                 ("address", .idVal "$User42.address" true)]),
              ("$User42.address", [("city", .prim (.str realCity))])], true) := by
  constructor <;>
    simp [c5UserField, c5UserSS, plainField, scalarSelections, uidCtx, writeFieldToStore,
      writeSelectionSetToStore, writeSelectionsToStore, storeKeyNameFromField,
      mergeWithGenerated, mergeWithGeneratedLoop, mergeWithGeneratedStep, alistRemove,
      alistSet, alistGet?, jsAssign, jsGetField, objGet, isUndef, isNullJs, isObjectJs,
      strictNeqStoreValue, jsStrictEqPrim, resultKeyNameFromField, FieldNode.arguments,
      FieldNode.name, FieldNode.fieldAlias, FieldNode.selectionSet, SelectionSet.selections,
      isGeneratedId, storeValueId, Bind.bind, Except.bind]

/-! ### C6: the partial-write signal of the graph writer -/

/-- Claim C6 fixture: an inline fragment selecting scalars `a` and `b`. -/
def c6FragmentSS : SelectionSet := SelectionSet.mk
  [Selection.field (plainField "a" none), Selection.field (plainField "b" none)]

/-- Claim C6 fixture: the fragment followed by a surrounding field `c`. -/
def c6SS : SelectionSet := SelectionSet.mk
  [Selection.inlineFragment c6FragmentSS, Selection.field (plainField "c" none)]

/-- Claim C6 fixture: a `getDataID` returning no id. -/
def gNoId : JsValue → Option String := fun _ => none

/-- C6, counterexample: writing `\x7ba: 1, c: 2\x7d` against a document
whose inline fragment selects `a` and the absent field `b`.  The fragment
write is abandoned — its data (`a`) is missing from the returned data — yet
the resulting graph differs from the graph produced by the same write
without the fragment: the abandoned fragment already wrote the scalar `a`
into node `X` before the partial-write signal fired, so it did contribute
to the store. -/
theorem c6_fragment_store_pollution_counterexample :
    Graph.writeToGraph 9 [] (some "X") [("a", .num 1), ("c", .num 2)] c6SS [] [] gNoId
      = ([("X", ⟨[("a", .num 1), ("c", .num 2)], []⟩)], .ok [("c", .num 2)]) ∧
    Graph.writeToGraph 9 [] (some "X") [("a", .num 1), ("c", .num 2)]
        (SelectionSet.mk [Selection.field (plainField "c" none)]) [] [] gNoId
      = ([("X", ⟨[("c", .num 2)], []⟩)], .ok [("c", .num 2)]) ∧
    ([("X", (⟨[("a", .num 1), ("c", .num 2)], []⟩ : Graph.GraphNode))] : Graph.GraphData)
      ≠ [("X", ⟨[("c", .num 2)], []⟩)] := by
  refine ⟨?_, ?_, ?_⟩
  · simp [c6SS, c6FragmentSS, plainField, gNoId, Graph.writeToGraph,
      Graph.writeGraphSelections, Graph.getFieldKey, Graph.ensureNode, Graph.nodeSetScalar,
      Graph.nodeSetRef, storeKeyNameFromField, alistSet, alistGet?, jsAssign, objGet, isUndef,
      isNullJs, resultKeyNameFromField, FieldNode.arguments, FieldNode.name,
      FieldNode.fieldAlias, FieldNode.selectionSet, SelectionSet.selections]
  · simp [plainField, gNoId, Graph.writeToGraph, Graph.writeGraphSelections,
      Graph.getFieldKey, Graph.ensureNode, Graph.nodeSetScalar, Graph.nodeSetRef,
      storeKeyNameFromField, alistSet, alistGet?, jsAssign, objGet, isUndef, isNullJs,
      resultKeyNameFromField, FieldNode.arguments, FieldNode.name, FieldNode.fieldAlias,
      FieldNode.selectionSet, SelectionSet.selections]
  · simp [Graph.GraphNode.mk.injEq]

/-- C6, amended: a field whose data is absent (`undefined`) raises the
internal partial-write signal.  Inside a named-fragment or inline-fragment
write, the signal is caught: the fragment's contribution to the returned
data is dropped and the surrounding (non-fragment) writes proceed — but
graph writes the fragment performed before the signal fired (here the
scalar `a`) persist in the store.  Outside any fragment the signal
propagates to the caller as an error.  The first conjunct exercises the
inline-fragment catch, the second the named-fragment catch, the third the
top-level propagation. -/
theorem c6_partial_write_amended (x y : Int) :
    Graph.writeToGraph 9 [] (some "X") [("a", .num x), ("c", .num y)] c6SS [] [] gNoId
      = ([("X", ⟨[("a", .num x), ("c", .num y)], []⟩)], .ok [("c", .num y)]) ∧
    Graph.writeToGraph 9 [] (some "X") [("a", .num x), ("c", .num y)]
        (SelectionSet.mk [Selection.fragmentSpread "F", Selection.field (plainField "c" none)])
        [("F", c6FragmentSS)] [] gNoId
      = ([("X", ⟨[("a", .num x), ("c", .num y)], []⟩)], .ok [("c", .num y)]) ∧
    Graph.writeToGraph 9 [] (some "X") [("a", .num x)]
        (SelectionSet.mk [Selection.field (plainField "b" none)]) [] [] gNoId
      = ([("X", ⟨[], []⟩)], .error (.partialWrite "No data found for field b.")) := by
  refine ⟨?_, ?_, ?_⟩ <;>
    simp [c6SS, c6FragmentSS, plainField, gNoId, Graph.writeToGraph,
      Graph.writeGraphSelections, Graph.getFieldKey, Graph.ensureNode, Graph.nodeSetScalar,
      Graph.nodeSetRef, storeKeyNameFromField, alistSet, alistGet?, jsAssign, objGet, isUndef,
      isNullJs, resultKeyNameFromField, FieldNode.arguments, FieldNode.name,
      FieldNode.fieldAlias, FieldNode.selectionSet, SelectionSet.selections]

/-! ### C8: optimistic record/remove round trip -/

/-- Splitting `takeWhile`/`dropWhile` around an appended element when the
predicate holds on the whole prefix and fails on the element. -/
theorem dropWhile_takeWhile_append_singleton {α : Type} (p : α → Bool) (xs : List α) (y : α)
    (hxs : ∀ x ∈ xs, p x = true) (hy : p y = false) :
    (xs ++ [y]).dropWhile p = [y] ∧ (xs ++ [y]).takeWhile p = xs := by
  induction xs with
  | nil => simp [List.dropWhile, List.takeWhile, hy]
  | cons a as ih =>
    obtain ⟨ih1, ih2⟩ := ih (fun z hz => hxs z (List.mem_cons_of_mem a hz))
    have ha := hxs a (List.mem_cons_self a as)
    simp [List.dropWhile, List.takeWhile, ha, ih1, ih2]

/-- C8: pushing an optimistic layer with `recordOptimistic m f` and then
removing that same layer with `removeOptimistic m` is a no-op on the
effective store (layer stack modelled from the spec): provided no existing
layer carries the mutation id `m`, the removal restores the entire previous
state, hence everything readable through the stack equals what was readable
before the push, and any entity present only in the removed optimistic diff
is absent again. -/
theorem c8_record_remove_roundtrip (s : Optimistic.OptimisticState) (m : String)
    (writeFn : NormalizedCache → NormalizedCache)
    (h : ∀ l ∈ s.layers, l.mutationId ≠ m) :
    Optimistic.removeOptimistic m (Optimistic.recordOptimistic m writeFn s) = s ∧
    Optimistic.effectiveStore
        (Optimistic.removeOptimistic m (Optimistic.recordOptimistic m writeFn s))
      = Optimistic.effectiveStore s := by
  have hxs : ∀ l ∈ s.layers, (fun (l : Optimistic.Layer) => l.mutationId != m) l = true := by
    intro l hl
    simp only [bne_iff_ne, ne_eq]
    exact h l hl
  have hy : (fun (l : Optimistic.Layer) => l.mutationId != m)
      ⟨m, writeFn, writeFn (Optimistic.effectiveStore s)⟩ = false := by
    simp
  obtain ⟨h1, h2⟩ :=
    dropWhile_takeWhile_append_singleton (fun (l : Optimistic.Layer) => l.mutationId != m)
      s.layers ⟨m, writeFn, writeFn (Optimistic.effectiveStore s)⟩ hxs hy
  have hmain :
      Optimistic.removeOptimistic m (Optimistic.recordOptimistic m writeFn s) = s := by
    unfold Optimistic.removeOptimistic Optimistic.recordOptimistic
    simp only []
    rw [h1, h2]
    simp
  exact ⟨hmain, by rw [hmain]⟩

/-- Claim C8 fixture: a base store with one entity and one unrelated layer. -/
def c8State : Optimistic.OptimisticState :=
  ⟨[("ROOT_QUERY", [("x", .prim (.num 1))])], [⟨"n", fun st => st, []⟩]⟩

/-- Witness for C8 at concrete inputs: recording a diff that creates an
entity `Todo99` under mutation id `m` and removing `m` again restores the
state. -/
theorem c8_record_remove_roundtrip_witness :
    Optimistic.removeOptimistic "m"
        (Optimistic.recordOptimistic "m"
          (fun _ => [("Todo99", [("text", .prim (.str "t"))])]) c8State)
      = c8State := by
  refine (c8_record_remove_roundtrip c8State "m" _ ?_).1
  intro l hl
  simp only [c8State, List.mem_singleton] at hl
  subst hl
  decide

end Apollo
